import Mathlib

/-!
Verification of vvtest against its natural-language specification.

The definitions below are shallow embeddings of the Python source of the
vvtest repository.  Strings are modelled as Lean `String` or `List Char`;
Python dictionaries are modelled as association lists whose lookup finds
the most recently inserted binding; `time.time()` values are modelled as
integers (only comparisons and differences of times occur in the embedded
code); Python sets returned by functions are represented as lists in
iteration order.

The files embedded here are:
  - vvt/libvvtest/batchutils.py   (batch job finishing, queue times, job scripts)
  - batch/batching.py             (batch job state transitions)
  - libvvtest/testexec.py         (test polling and timeout escalation)
  - vvt/libvvtest/depend.py       (dependency pattern resolution)
  - vvt/libvvtest/TestList.py     (warning encoding, duplicate execute dirs)
  - libvvtest/testcase.py         (dependency storage)
  - libvvtest/exechandler.py      (post-clean of execute directories)
together with the pieces of the Python standard library they call:
`fnmatch.fnmatch` (POSIX case-sensitive form) and the POSIX variants of
`os.path.dirname`, `os.path.basename` and `os.path.normpath`.
-/

namespace Vvtest

/-! ### fnmatch: shell glob matching (Python `fnmatch.fnmatch`, POSIX)

`fnmatch.translate` turns a glob pattern into a regex: `*` becomes `.*`,
`?` becomes `.`, a bracketed class becomes a regex character class (with
`!` negation, a literal `]` allowed first, and `-` ranges), and an
unterminated `[` is a literal `[`.  The matcher below implements that
semantics directly on character lists.  Fuel bounds the recursion; every
recursive call strictly decreases `pat.length + s.length`, so fuel
`pat.length + s.length + 1` always suffices. -/

/-- Membership of a character in a regex character class body, with `-`
ranges by code point and a `-` at either end taken literally. -/
def inClass : List Char → Char → Bool
  | a :: '-' :: b :: rest, c => (decide (a ≤ c) && decide (c ≤ b)) || inClass rest c
  | a :: rest, c => (a == c) || inClass rest c
  | [], _ => false

/-- Scan to the closing `]` of a character class, returning the class body
and the remainder of the pattern; `none` when there is no closing `]`. -/
def spanToClose : List Char → Option (List Char × List Char)
  | [] => none
  | ']' :: r => some ([], r)
  | c :: r =>
      match spanToClose r with
      | some (cls, rest) => some (c :: cls, rest)
      | none => none

/-- Class body parsing after an optional `!`: a `]` in first position is
part of the class, as in `fnmatch.translate`. -/
def splitClassBody : List Char → Option (List Char × List Char)
  | ']' :: r =>
      match spanToClose r with
      | some (cls, rest) => some (']' :: cls, rest)
      | none => none
  | t => spanToClose t

/-- Parse the inside of a `[...]` class: returns negation flag, class body
and the pattern remainder, or `none` when the `[` is unterminated. -/
def splitClass (ps : List Char) : Option (Bool × List Char × List Char) :=
  match ps with
  | '!' :: t =>
      match splitClassBody t with
      | some (cls, rest) => some (true, cls, rest)
      | none => none
  | t =>
      match splitClassBody t with
      | some (cls, rest) => some (false, cls, rest)
      | none => none

/-- The fuelled glob matcher: `globMatchFuel fuel pat s` decides whether
pattern `pat` matches the whole string `s`. -/
def globMatchFuel : Nat → List Char → List Char → Bool
  | 0, _, _ => false
  | _ + 1, [], s => s.isEmpty
  | fuel + 1, '*' :: ps, s =>
      globMatchFuel fuel ps s ||
        (match s with
         | [] => false
         | _ :: s2 => globMatchFuel fuel ('*' :: ps) s2)
  | fuel + 1, '?' :: ps, s =>
      match s with
      | [] => false
      | _ :: s2 => globMatchFuel fuel ps s2
  | fuel + 1, '[' :: ps, s =>
      match splitClass ps with
      | some (neg, cls, rest) =>
          match s with
          | [] => false
          | c :: s2 => (inClass cls c != neg) && globMatchFuel fuel rest s2
      | none =>
          match s with
          | [] => false
          | c :: s2 => (c == '[') && globMatchFuel fuel ps s2
  | fuel + 1, p :: ps, s =>
      match s with
      | [] => false
      | c :: s2 => (c == p) && globMatchFuel fuel ps s2

/-- Python `fnmatch.fnmatch(name, pat)` on a POSIX platform (where
`os.path.normcase` is the identity). -/
def fnmatch (name pat : List Char) : Bool :=
  globMatchFuel (pat.length + name.length + 1) pat name

/-! ### POSIX path helpers (`os.path.dirname`, `basename`, `normpath`) -/

/-- Python `p[:p.rfind(sep) + 1]`: everything up to and including the last
slash, empty when there is no slash. -/
def takeToLastSlash (p : List Char) : List Char :=
  (p.reverse.dropWhile (fun c => !(c == '/'))).reverse

/-- POSIX `os.path.dirname` on character lists. -/
def dirnameL (p : List Char) : List Char :=
  let head := takeToLastSlash p
  if head ≠ [] ∧ head.any (fun c => !(c == '/')) then
    (head.reverse.dropWhile (fun c => c == '/')).reverse
  else
    head

/-- POSIX `os.path.basename` on character lists. -/
def basenameL (p : List Char) : List Char :=
  (p.reverse.takeWhile (fun c => !(c == '/'))).reverse

/-- Python `path.split(sep)` for a one-character separator `/`. -/
def splitSlash : List Char → List (List Char)
  | [] => [[]]
  | '/' :: r => [] :: splitSlash r
  | c :: r =>
      match splitSlash r with
      | h :: t => (c :: h) :: t
      | [] => [[c]]

/-- Python `sep.join(comps)` for separator `/`. -/
def joinSlash : List (List Char) → List Char
  | [] => []
  | [c] => c
  | c :: r => c ++ '/' :: joinSlash r

/-- The component loop of POSIX `os.path.normpath`: the accumulator holds
the retained components in reverse order (Python appends at the end and
inspects `new_comps[-1]`; here we cons and inspect the head). -/
def normCompsL (isl : Bool) : List (List Char) → List (List Char) → List (List Char)
  | acc, [] => acc.reverse
  | acc, comp :: rest =>
      if comp = [] ∨ comp = ['.'] then
        normCompsL isl acc rest
      else if comp ≠ ['.', '.'] ∨ (isl = false ∧ acc = []) ∨ acc.head? = some ['.', '.'] then
        normCompsL isl (comp :: acc) rest
      else
        match acc with
        | _ :: acc2 => normCompsL isl acc2 rest
        | [] => normCompsL isl acc rest

/-- POSIX `os.path.normpath` on character lists: empty path becomes `.`,
an initial `//` (but not `///` or more) is preserved doubled, `.` and
empty components are dropped, and `..` cancels a preceding component. -/
def normpathL (p : List Char) : List Char :=
  if p = [] then ['.'] else
  let islashes : Nat :=
    match p with
    | '/' :: '/' :: '/' :: _ => 1
    | '/' :: '/' :: _ => 2
    | '/' :: _ => 1
    | _ => 0
  let comps := normCompsL (islashes ≠ 0) [] (splitSlash p)
  let res := List.replicate islashes '/' ++ joinSlash comps
  if res = [] then ['.'] else res

/-! ### Batch job finishing (vvt/libvvtest/batchutils.py, Batcher._finish_job)

A `BatchJob` is modelled by its batch id together with the two filesystem
facts `_finish_job` inspects: whether the job's output file exists and
whether its results file exists.  The job monitor's three dictionaries
(submitted, stopped, done) are association lists keyed by batch id whose
lookup finds the most recent binding. -/

structure BatchJob where
  batchid : Nat
  outputExists : Bool
  resultsExists : Bool
deriving DecidableEq

structure JobMon where
  submitted : List (Nat × BatchJob)
  stopped : List (Nat × BatchJob)
  done : List (Nat × (BatchJob × String))
deriving DecidableEq

/-- Embedding of `BatchJobHandler._pop_job`: remove the batch id from all
three tables. -/
def popJob (jm : JobMon) (bid : Nat) : JobMon :=
  { submitted := jm.submitted.filter (fun p => p.1 != bid)
    stopped := jm.stopped.filter (fun p => p.1 != bid)
    done := jm.done.filter (fun p => p.1 != bid) }

/-- Embedding of `BatchJobHandler.markJobDone`: pop the job and record it
as done with the given result string. -/
def markJobDone (jm : JobMon) (bj : BatchJob) (mark : String) : JobMon :=
  let jm2 := popJob jm bj.batchid
  { jm2 with done := (bj.batchid, (bj, mark)) :: jm2.done }

/-- The synthetic terminal mark chosen by `Batcher._finish_job`: `notrun`
when the output file does not exist, else `notdone` when the results file
exists, else `fail`. -/
def finish_job_mark (bj : BatchJob) : String :=
  if !bj.outputExists then "notrun"
  else if bj.resultsExists then "notdone"
  else "fail"

/-- Embedding of `Batcher._finish_job` restricted to its effect on the job
monitor (the returned test list is read from the results file and does not
affect the monitor state). -/
def finish_job (jm : JobMon) (bj : BatchJob) : JobMon :=
  markJobDone jm bj (finish_job_mark bj)

/-! ### Batch job state transition (batch/batching.py) -/

/-- Embedding of `BatchJobHandler._check_stopped_job`: the job moves from
submitted to stopped exactly when the queue status string is empty (the
adapter no longer lists the job) and either more than 30 seconds have
elapsed since the start time or the output file has been seen. -/
def check_stopped_job (queueStatus : String) (startTime currentTime : Int)
    (outfileSeen : Bool) : Bool :=
  queueStatus.isEmpty && (decide (currentTime - startTime > 30) || outfileSeen)

/-! ### Batch job script command (vvt/libvvtest/batchutils.py, JobMaker.writeJob)

The float literal 0.90 of the source is modelled as the rational 9/10 and
the queue time as a rational number. -/

/-- The `-T` chunk appended to the re-invocation command by
`JobMaker.writeJob`: present only when the batch's test map has exactly
one entry. -/
def writeJobTArgChunk (numTests : Nat) (qtime : ℚ) : String :=
  if numTests = 1 then
    if qtime < 600 then " -T " ++ toString (qtime * (9/10))
    else " -T " ++ toString (qtime - 120)
  else ""

/-- The full re-invocation command built by `JobMaker.writeJob`. -/
def writeJobCmd (vvtestcmd bidstr : String) (numTests : Nat) (qtime : ℚ) : String :=
  vvtestcmd ++ " --qsub-id=" ++ bidstr ++ writeJobTArgChunk numTests qtime ++ " || exit 1"

/-! ### Batch queue time (vvt/libvvtest/batchutils.py) -/

/-- The "no timeout" queue length used in batch mode: 21 hours. -/
def Tzero : Nat := 21*60*60

/-- Embedding of `apply_queue_timeout_bump_factor`.  The source computes
`int( float(qtime-600) * 0.3 )` in double precision; for every integer
`0 ≤ k < 1200` the double product `k * 0.3` rounds to a value with the
same floor as the exact rational `3*k/10` (the product is within
`1.4e-14` of the exact value and never crosses an integer boundary), so
the truncation is the natural-number division by 10 used here. -/
def apply_queue_timeout_bump_factor (qtime : Nat) : Nat :=
  if qtime < 60 then qtime + 60
  else if qtime < 10*60 then qtime + qtime
  else if qtime < 30*60 then qtime + min (15*60) (10*60 + 3*(qtime - 10*60)/10)
  else qtime + min (15*60) (10*60 + 3*(30*60 - 10*60)/10)

/-- Embedding of `BatchTestGrouper.computeQueueTime`: sum the member
timeouts, substitute `Tzero` for a zero sum, otherwise bump, and cap at
`max_timeout` when that attribute is truthy (configured and nonzero). -/
def computeQueueTime (timeouts : List Nat) (maxTimeout : Option Nat) : Nat :=
  let qtime := timeouts.foldl (fun a b => a + b) 0
  let qtime2 := if qtime = 0 then Tzero else apply_queue_timeout_bump_factor qtime
  match maxTimeout with
  | some m => if 0 < m then min qtime2 m else qtime2
  | none => qtime2

/-! ### Integer warning encoding (vvt/libvvtest/TestList.py) -/

/-- The contribution of one test to `TestList.encodeIntegerWarning`: a test
is modelled by its skip flag and its result status string. -/
def warningBits (skip : Bool) (result : String) : Nat :=
  if skip then 0
  else if result = "diff" then 2^1
  else if result = "fail" then 2^2
  else if result = "timeout" then 2^3
  else if result = "notdone" then 2^4
  else if result = "notrun" then 2^5
  else 0

/-- Embedding of `TestList.encodeIntegerWarning`: bitwise OR of the
contributions over the stored tests. -/
def encodeIntegerWarning (tests : List (Bool × String)) : Nat :=
  tests.foldl (fun ival t => ival ||| warningBits t.1 t.2) 0

/-! ### Test polling and timeout escalation (libvvtest/testexec.py) -/

/-- Seconds between the SIGINT on timeout and the follow-up signal. -/
def interrupt_to_kill_timeout : Int := 30

/-- The fields of `TestExec` that the timeout branch of `poll` reads and
writes: the configured timeout, the start time, and the recorded moment
of the first timeout (None before the test times out). -/
structure ExecState where
  timeout : Int
  tstart : Int
  timedout : Option Int
deriving DecidableEq

inductive Sig where
  | sigint
  | sigterm
deriving DecidableEq

/-- One call of `TestExec.poll` for a started test, restricted to its
signalling behaviour: when the child has not exited and the test has a
positive timeout that is exceeded, send SIGINT on the first crossing and
record the moment, and send SIGTERM on a later poll more than
`interrupt_to_kill_timeout` seconds after the recorded moment. -/
def pollStep (childExited : Bool) (now : Int) (st : ExecState) : ExecState × List Sig :=
  if childExited then (st, [])
  else if st.timeout > 0 then
    if now - st.tstart > st.timeout then
      match st.timedout with
      | none => ({ st with timedout := some now }, [Sig.sigint])
      | some td =>
          if now - td > interrupt_to_kill_timeout then (st, [Sig.sigterm]) else (st, [])
    else (st, [])
  else (st, [])

/-- A sequence of polls: each event gives whether the child had exited and
the current time; the emitted signals are concatenated in order. -/
def pollTrace : ExecState → List (Bool × Int) → ExecState × List Sig
  | st, [] => (st, [])
  | st, e :: rest =>
      let r := pollStep e.1 e.2 st
      let r2 := pollTrace r.1 rest
      (r2.1, r.2 ++ r2.2)

/-! ### Dependency resolution (vvt/libvvtest/depend.py) -/

/-- The `tbase` prefix computed by `find_tests_by_execute_directory_match`:
the dirname of the dependent execute directory, with `.` replaced by the
empty string and a trailing slash appended when nonempty. -/
def dep_tbase (xdir : String) : List Char :=
  let tb := dirnameL xdir.toList
  if tb = ['.'] then []
  else if tb ≠ [] then tb ++ ['/']
  else tb

/-- Embedding of `find_tests_by_execute_directory_match`: one pass over the
known execute directories accumulates the four candidate match lists, and
the first nonempty list is returned (the Python set in iteration order). -/
def find_tests_by_execute_directory_match (xdir pattern : String)
    (xdirs : List String) : List String :=
  let tbase := dep_tbase xdir
  let p1 := normpathL (tbase ++ pattern.toList)
  let p2 := tbase ++ '*' :: '/' :: pattern.toList
  let p4 := '*' :: pattern.toList
  let r := xdirs.foldl (fun acc x =>
      ( if fnmatch x.toList p1 then acc.1 ++ [x] else acc.1,
        if fnmatch x.toList p2 then acc.2.1 ++ [x] else acc.2.1,
        if fnmatch x.toList pattern.toList then acc.2.2.1 ++ [x] else acc.2.2.1,
        if fnmatch x.toList p4 then acc.2.2.2 ++ [x] else acc.2.2.2 ))
    ([], [], [], [])
  if r.1 ≠ [] then r.1
  else if r.2.1 ≠ [] then r.2.1
  else if r.2.2.1 ≠ [] then r.2.2.1
  else if r.2.2.2 ≠ [] then r.2.2.2
  else []

/-! ### Duplicate execute directories (vvt/libvvtest/TestList.py) -/

/-- The fields of a parsed `TestSpec` consulted by the duplicate-execute-
directory check: id, execute directory, display string, and filename. -/
structure TestSpec where
  tid : Nat
  xdir : String
  displ : String
  filename : String
deriving DecidableEq

/-- Python `str.startswith` on character lists. -/
def startswith : List Char → List Char → Bool
  | _, [] => true
  | [], _ :: _ => false
  | c :: s, p :: ps => (c == p) && startswith s ps

/-- Embedding of `tests_are_related_by_staging`: equal execute directories
and filenames, and both display strings properly extend their execute
directory. -/
def tests_are_related_by_staging (t1 t2 : TestSpec) : Bool :=
  t1.xdir == t2.xdir &&
  t1.filename == t2.filename &&
  t1.xdir != t1.displ && startswith t1.displ.toList t1.xdir.toList &&
  t2.xdir != t2.displ && startswith t2.displ.toList t2.xdir.toList

/-- The `xdirmap` lookup: the accepted tests are kept newest first, so the
dictionary entry for an execute directory is the first hit. -/
def xdirLookup (acc : List TestSpec) (x : String) : Option TestSpec :=
  acc.find? (fun t => t.xdir == x)

/-- Embedding of `TestList._is_duplicate_execute_directory`. -/
def is_duplicate_execute_directory (acc : List TestSpec) (t : TestSpec) : Bool :=
  match xdirLookup acc t.xdir with
  | some t0 => !(tests_are_related_by_staging t0 t)
  | none => false

/-- One step of the storage loop in `TestList.readTestFile`: a parsed spec
is stored unless it is a duplicate execute directory. -/
def addParsedTest (acc : List TestSpec) (t : TestSpec) : List TestSpec :=
  if is_duplicate_execute_directory acc t then acc else t :: acc

/-- The storage loop of `TestList.readTestFile` over a list of parsed
specs. -/
def addParsedTests (acc : List TestSpec) (ts : List TestSpec) : List TestSpec :=
  ts.foldl addParsedTest acc

/-! ### Dependency storage (libvvtest/testcase.py) -/

/-- A stored dependency: the id of the dependency test together with the
match pattern and word expression payload (the latter two are opaque to
`addDependency`). -/
structure TestDependency where
  testID : Nat
  matchpat : Option String
  wordexpr : Option String
deriving DecidableEq

/-- Embedding of `TestCase.addDependency` on the `deps` list: replace the
first entry with the same dependency test id in place, else append. -/
def addDependency : List TestDependency → TestDependency → List TestDependency
  | [], d => [d]
  | t :: ts, d => if t.testID = d.testID then d :: ts else t :: addDependency ts d

/-- Embedding of `TestCase.numDependencies`. -/
def numDependencies (deps : List TestDependency) : Nat :=
  deps.length

/-! ### Post-clean of execute directories (libvvtest/exechandler.py)

A filesystem entry is modelled by the directory it lives in, its name,
and whether it is a symbolic link; `post_clean_execute_directory` only
lists and removes entries of the run directory. -/

structure DirEntry where
  dir : String
  name : String
  isLink : Bool
deriving DecidableEq

/-- The `excludes` list of `post_clean_execute_directory`. -/
def post_clean_excludes (specform : String) : List String :=
  ["execute.log", "baseline.log", "vvtest_util.py", "vvtest_util.sh",
   "machinefile", "testdata.repr"]
    ++ (if specform = "xml" then ["runscript"] else [])

/-- Whether `post_clean_execute_directory` removes an entry of the run
directory: not excluded, not an `execute_*.log` file, and not a symbolic
link. -/
def post_clean_removes (specform : String) (e : DirEntry) : Bool :=
  !(post_clean_excludes specform).contains e.name &&
  !(fnmatch e.name.toList ("execute_*.log").toList) &&
  !e.isLink

/-- Embedding of `post_clean_execute_directory` as its effect on a
filesystem: entries of the run directory satisfying the removal predicate
disappear; all other entries are untouched. -/
def post_clean_execute_directory (rundir specform : String)
    (fs : List DirEntry) : List DirEntry :=
  fs.filter (fun e => !(e.dir == rundir && post_clean_removes specform e))

/-! ## Theorems -/

/-- Lookup in an association list is unchanged by filtering out a different
key. -/
theorem lookup_filter_ne {β : Type} (l : List (Nat × β)) (bid bid2 : Nat)
    (h : bid2 ≠ bid) :
    List.lookup bid2 (l.filter (fun p => p.1 != bid)) = List.lookup bid2 l := by
  induction l with
  | nil => rfl
  | cons p l ih =>
      by_cases hp : p.1 = bid
      · have hb : (bid2 == p.1) = false := by
          simp [hp, h]
        have hb2 : (bid2 == bid) = false := by simp [h]
        simp [List.filter_cons, hp, List.lookup, hb, hb2, ih]
      · by_cases h2 : bid2 = p.1
        · simp [List.filter_cons, hp, List.lookup, h2]
        · have hb : (bid2 == p.1) = false := by simp [h2]
          simp [List.filter_cons, hp, List.lookup, hb, ih]

/-- C1 counterexample: a stopped job whose output file exists but whose
results file is missing is marked `fail`, not `notdone` as the claim
states; and a job whose output and results files both exist (so only the
finish marker is missing) is marked `notdone`, not `fail`. -/
theorem finish_job_mark_counterexample :
    finish_job_mark { batchid := 0, outputExists := true, resultsExists := false } = "fail" ∧
    finish_job_mark { batchid := 0, outputExists := true, resultsExists := false } ≠ "notdone" ∧
    finish_job_mark { batchid := 1, outputExists := true, resultsExists := true } = "notdone" ∧
    finish_job_mark { batchid := 1, outputExists := true, resultsExists := true } ≠ "fail" := by
  refine ⟨rfl, by decide, rfl, by decide⟩

/-- C1 (amended): when the clean-finish check has failed for longer than
`check_timeout`, `_finish_job` assigns exactly one synthetic terminal
result: `notrun` when the output file is missing, `notdone` when the
output file and the results file both exist (only the finish marker is
missing), and `fail` when the output file exists but the results file is
missing; the job is recorded done under its own batch id and the monitor
entries of every other batch id are unchanged. -/
theorem finish_job_marks (jm : JobMon) (bj : BatchJob) (bid2 : Nat) :
    (bj.outputExists = false → finish_job_mark bj = "notrun") ∧
    (bj.outputExists = true → bj.resultsExists = true → finish_job_mark bj = "notdone") ∧
    (bj.outputExists = true → bj.resultsExists = false → finish_job_mark bj = "fail") ∧
    List.lookup bj.batchid (finish_job jm bj).done = some (bj, finish_job_mark bj) ∧
    (bid2 ≠ bj.batchid →
      List.lookup bid2 (finish_job jm bj).done = List.lookup bid2 jm.done ∧
      List.lookup bid2 (finish_job jm bj).submitted = List.lookup bid2 jm.submitted ∧
      List.lookup bid2 (finish_job jm bj).stopped = List.lookup bid2 jm.stopped) := by
  refine ⟨?_, ?_, ?_, ?_, ?_⟩
  · intro h; simp [finish_job_mark, h]
  · intro h1 h2; simp [finish_job_mark, h1, h2]
  · intro h1 h2; simp [finish_job_mark, h1, h2]
  · simp [finish_job, markJobDone, popJob, List.lookup]
  · intro h
    have hb : (bid2 == bj.batchid) = false := by simp [h]
    refine ⟨?_, ?_, ?_⟩
    · simp [finish_job, markJobDone, popJob, List.lookup, hb,
        lookup_filter_ne _ _ _ h]
    · simp [finish_job, markJobDone, popJob, lookup_filter_ne _ _ _ h]
    · simp [finish_job, markJobDone, popJob, lookup_filter_ne _ _ _ h]

/-- Witness for the amended C1 theorem at a concrete job and monitor. -/
theorem finish_job_marks_witness :
    finish_job_mark ⟨1, true, true⟩ = "notdone" ∧
    List.lookup 1 (finish_job ⟨[], [], []⟩ ⟨1, true, true⟩).done
      = some (⟨1, true, true⟩, finish_job_mark ⟨1, true, true⟩) ∧
    List.lookup 0 (finish_job ⟨[], [], []⟩ ⟨1, true, true⟩).done
      = List.lookup 0 (JobMon.done ⟨[], [], []⟩) :=
  ⟨(finish_job_marks ⟨[], [], []⟩ ⟨1, true, true⟩ 0).2.1 rfl rfl,
   (finish_job_marks ⟨[], [], []⟩ ⟨1, true, true⟩ 0).2.2.2.1,
   ((finish_job_marks ⟨[], [], []⟩ ⟨1, true, true⟩ 0).2.2.2.2 (by decide)).1⟩

/-- C3 counterexample: with the job still listed by the adapter (queue
status `R`), 100 seconds elapsed and the output file seen, the claim's
condition (b) holds yet the code keeps the job submitted; and with the
job no longer listed but only 10 seconds elapsed and no output seen, the
claim's condition (a) holds yet the code keeps the job submitted. -/
theorem check_stopped_job_counterexample :
    ((100 : Int) - 0 > 30 ∧ check_stopped_job ("R") 0 100 true = false) ∧
    (String.isEmpty "" = true ∧ check_stopped_job ("") 0 10 false = false) := by
  refine ⟨⟨by decide, rfl⟩, ⟨rfl, rfl⟩⟩

/-- C3 (amended): during polling a submitted batch job transitions to
stopped exactly when the adapter no longer lists it (empty queue status)
and, in addition, either more than 30 seconds have elapsed since the
job's startTime or the job's output file has been seen; otherwise it
stays submitted. -/
theorem check_stopped_job_iff (qs : String) (st now : Int) (seen : Bool) :
    check_stopped_job qs st now seen = true ↔
      qs = "" ∧ (now - st > 30 ∨ seen = true) := by
  simp [check_stopped_job, String.isEmpty_iff]

/-- C4 counterexample: a batch holding two tests gets no `-T` argument at
all; the chunk that `writeJob` would insert is empty and the re-invocation
command mentions no timeout. -/
theorem writeJob_tchunk_counterexample :
    writeJobTArgChunk 2 500 = "" ∧
    writeJobCmd ("vvtest") ("0") 2 500 = "vvtest --qsub-id=0 || exit 1" := by
  exact ⟨rfl, rfl⟩

/-- C4 (amended): the generated job script's re-invocation command carries
a `-T` argument only when the batch holds exactly one test; in that case
the argument equals 0.90 times queueTime when queueTime is below 600
seconds and queueTime minus 120 seconds otherwise, and for any other
batch size the command carries no `-T` argument. -/
theorem writeJob_timeout_arg (v b : String) (n : Nat) (q : ℚ) :
    (n = 1 → q < 600 →
      writeJobCmd v b n q
        = v ++ " --qsub-id=" ++ b ++ " -T " ++ toString (q * (9/10)) ++ " || exit 1") ∧
    (n = 1 → ¬ q < 600 →
      writeJobCmd v b n q
        = v ++ " --qsub-id=" ++ b ++ " -T " ++ toString (q - 120) ++ " || exit 1") ∧
    (n ≠ 1 → writeJobCmd v b n q = v ++ " --qsub-id=" ++ b ++ " || exit 1") := by
  refine ⟨?_, ?_, ?_⟩
  · intro h1 h2
    simp [writeJobCmd, writeJobTArgChunk, h1, h2, String.append_assoc]
  · intro h1 h2
    simp [writeJobCmd, writeJobTArgChunk, h1, h2, String.append_assoc]
  · intro h
    simp [writeJobCmd, writeJobTArgChunk, h]

/-- Witness for the amended C4 theorem at a two-test batch. -/
theorem writeJob_timeout_arg_witness :
    (2 : Nat) ≠ 1 ∧
    writeJobCmd ("vv") ("7") 2 650 = ("vv") ++ " --qsub-id=" ++ ("7") ++ " || exit 1" :=
  ⟨by decide, (writeJob_timeout_arg ("vv") ("7") 2 650).2.2 (by decide)⟩

/-- The queue-time overhead schedule is monotone. -/
theorem apply_queue_timeout_bump_factor_mono (t1 t2 : Nat) (h : t1 ≤ t2) :
    apply_queue_timeout_bump_factor t1 ≤ apply_queue_timeout_bump_factor t2 := by
  unfold apply_queue_timeout_bump_factor
  split_ifs <;> omega

/-- C7: a batch whose member timeouts sum to zero gets the 21-hour
no-timeout default; otherwise the sum is bumped by the monotone overhead
schedule of `apply_queue_timeout_bump_factor` (`+60` below 60 s, doubled
below 600 s, `+min(900, 600+⌊0.3(t−600)⌋)` below 1800 s, and the
plateau `+min(900, 600+⌊0.3·1200⌋)` beyond); a configured (nonzero)
maxTimeout caps the returned queue time. -/
theorem computeQueueTime_schedule (timeouts : List Nat) (m t1 t2 : Nat) :
    (timeouts.foldl (fun a b => a + b) 0 = 0 → computeQueueTime timeouts none = Tzero) ∧
    (timeouts.foldl (fun a b => a + b) 0 ≠ 0 →
      computeQueueTime timeouts none
        = apply_queue_timeout_bump_factor (timeouts.foldl (fun a b => a + b) 0)) ∧
    (t1 < 60 → apply_queue_timeout_bump_factor t1 = t1 + 60) ∧
    (60 ≤ t1 → t1 < 600 → apply_queue_timeout_bump_factor t1 = 2 * t1) ∧
    (600 ≤ t1 → t1 < 1800 →
      apply_queue_timeout_bump_factor t1 = t1 + min 900 (600 + 3 * (t1 - 600) / 10)) ∧
    (1800 ≤ t1 → apply_queue_timeout_bump_factor t1 = t1 + min 900 (600 + 3 * 1200 / 10)) ∧
    (t1 ≤ t2 →
      apply_queue_timeout_bump_factor t1 ≤ apply_queue_timeout_bump_factor t2) ∧
    (0 < m → computeQueueTime timeouts (some m) ≤ m) ∧
    (0 < m → computeQueueTime timeouts (some m) = min (computeQueueTime timeouts none) m) := by
  refine ⟨?_, ?_, ?_, ?_, ?_, ?_, apply_queue_timeout_bump_factor_mono t1 t2, ?_, ?_⟩
  · intro h; simp [computeQueueTime, h]
  · intro h; simp [computeQueueTime, h]
  · intro h; unfold apply_queue_timeout_bump_factor; split_ifs <;> omega
  · intro h1 h2; unfold apply_queue_timeout_bump_factor; split_ifs <;> omega
  · intro h1 h2; unfold apply_queue_timeout_bump_factor; split_ifs <;> omega
  · intro h; unfold apply_queue_timeout_bump_factor; split_ifs <;> omega
  · intro h; simp [computeQueueTime, h]
  · intro h; simp [computeQueueTime, h]

/-- Witness for the C7 theorem at a concrete batch. -/
theorem computeQueueTime_schedule_witness :
    computeQueueTime [100] none = apply_queue_timeout_bump_factor 100 ∧
    apply_queue_timeout_bump_factor 100 = 2 * 100 ∧
    computeQueueTime [100] (some 150) ≤ 150 :=
  ⟨(computeQueueTime_schedule [100] 150 100 100).2.1 (by decide),
   ((computeQueueTime_schedule [100] 150 100 100).2.2.2.1 (by decide) (by decide)),
   ((computeQueueTime_schedule [100] 150 100 100).2.2.2.2.2.2.2.1 (by decide))⟩

/-- Members of the dependency list after an `addDependency` are the new
dependency or old entries. -/
theorem mem_addDependency (deps : List TestDependency) (d t : TestDependency)
    (h : t ∈ addDependency deps d) : t = d ∨ t ∈ deps := by
  induction deps with
  | nil => simp [addDependency] at h; exact Or.inl h
  | cons a as ih =>
      by_cases ha : a.testID = d.testID
      · simp [addDependency, ha] at h
        rcases h with h | h
        · exact Or.inl h
        · exact Or.inr (List.mem_cons_of_mem _ h)
      · simp [addDependency, ha] at h
        rcases h with h | h
        · exact Or.inr (by simp [h])
        · rcases ih h with h2 | h2
          · exact Or.inl h2
          · exact Or.inr (List.mem_cons_of_mem _ h2)

/-- C9: `addDependency` keeps at most one entry per dependency test id:
when an entry with the same id exists the list length is unchanged (the
entry is replaced in place), adding the same dependency twice equals
adding it once, distinctness of the stored ids is preserved, and (on a
list with distinct ids) `numDependencies` equals the number of distinct
dependency test ids. -/
theorem addDependency_unique (deps : List TestDependency) (d : TestDependency) :
    ((∃ t ∈ deps, t.testID = d.testID) → (addDependency deps d).length = deps.length) ∧
    addDependency (addDependency deps d) d = addDependency deps d ∧
    d ∈ addDependency deps d ∧
    ((deps.map TestDependency.testID).Nodup →
      ((addDependency deps d).map TestDependency.testID).Nodup) ∧
    ((deps.map TestDependency.testID).Nodup →
      numDependencies deps = (deps.map TestDependency.testID).dedup.length) := by
  refine ⟨?_, ?_, ?_, ?_, ?_⟩
  · intro h
    induction deps with
    | nil => simp at h
    | cons a as ih =>
        by_cases ha : a.testID = d.testID
        · simp [addDependency, ha]
        · simp [addDependency, ha]
          rcases h with ⟨t, ht, hid⟩
          rcases List.mem_cons.mp ht with rfl | hmem
          · exact absurd hid ha
          · exact ih ⟨t, hmem, hid⟩
  · induction deps with
    | nil => simp [addDependency]
    | cons a as ih =>
        by_cases ha : a.testID = d.testID
        · simp [addDependency, ha]
        · simp [addDependency, ha, ih]
  · induction deps with
    | nil => simp [addDependency]
    | cons a as ih =>
        by_cases ha : a.testID = d.testID
        · simp [addDependency, ha]
        · simp [addDependency, ha]
          exact Or.inr ih
  · intro h
    induction deps with
    | nil => simp [addDependency]
    | cons a as ih =>
        by_cases ha : a.testID = d.testID
        · simp [addDependency, ha]
          simp [List.nodup_cons] at h ⊢
          exact ⟨by rw [← ha]; exact h.1, h.2⟩
        · simp [addDependency, ha, List.nodup_cons]
          simp [List.nodup_cons] at h
          refine ⟨?_, ih h.2⟩
          intro t ht hid
          rcases mem_addDependency as d t ht with rfl | hmem
          · exact ha hid.symm
          · exact h.1 t hmem hid
  · intro h
    simp [numDependencies, List.dedup_eq_self.mpr h]

/-- Witness for the C9 theorem at a concrete dependency list. -/
theorem addDependency_unique_witness :
    (∃ t ∈ [(⟨1, none, none⟩ : TestDependency)], t.testID = 1) ∧
    (addDependency [(⟨1, none, none⟩ : TestDependency)] ⟨1, some ("p"), none⟩).length
      = [(⟨1, none, none⟩ : TestDependency)].length ∧
    numDependencies [(⟨1, none, none⟩ : TestDependency)]
      = ([(⟨1, none, none⟩ : TestDependency)].map TestDependency.testID).dedup.length :=
  ⟨by decide,
   (addDependency_unique [⟨1, none, none⟩] ⟨1, some ("p"), none⟩).1 (by decide),
   (addDependency_unique [⟨1, none, none⟩] ⟨1, some ("p"), none⟩).2.2.2.2 (by decide)⟩

/-- A poll from a state whose timeout moment is recorded leaves the state
unchanged and never emits SIGINT. -/
theorem pollStep_some (c : Bool) (now td : Int) (st : ExecState)
    (h : st.timedout = some td) :
    (pollStep c now st).1 = st ∧ Sig.sigint ∉ (pollStep c now st).2 := by
  unfold pollStep
  cases c <;> simp [h] <;> split_ifs <;> simp

/-- A poll from a state with no recorded timeout either leaves the state
unchanged with no signal, or records the poll time and emits exactly one
SIGINT. -/
theorem pollStep_none (c : Bool) (now : Int) (st : ExecState)
    (h : st.timedout = none) :
    pollStep c now st = (st, []) ∨
      pollStep c now st = ({ st with timedout := some now }, [Sig.sigint]) := by
  cases c
  · by_cases h1 : st.timeout > 0
    · by_cases h2 : now - st.tstart > st.timeout
      · right; unfold pollStep; simp [h, h1, h2]
      · left; unfold pollStep; simp [h, h1, h2]
    · left; unfold pollStep; simp [h, h1]
  · left; unfold pollStep; simp

/-- No SIGINT is ever emitted along a trace that starts with a recorded
timeout moment. -/
theorem pollTrace_some_no_sigint (events : List (Bool × Int)) (st : ExecState)
    (td : Int) (h : st.timedout = some td) :
    (pollTrace st events).2.count Sig.sigint = 0 := by
  induction events generalizing st with
  | nil => simp [pollTrace]
  | cons e rest ih =>
      have hs := pollStep_some e.1 e.2 td st h
      simp [pollTrace, List.count_append]
      constructor
      · exact List.count_eq_zero.mpr hs.2
      · rw [hs.1]; exact ih st h

/-- Along any trace at most one SIGINT is emitted. -/
theorem pollTrace_sigint_le_one (events : List (Bool × Int)) (st : ExecState) :
    (pollTrace st events).2.count Sig.sigint ≤ 1 := by
  induction events generalizing st with
  | nil => simp [pollTrace]
  | cons e rest ih =>
      cases htd : st.timedout with
      | some td =>
          have := pollTrace_some_no_sigint (e :: rest) st td htd
          omega
      | none =>
          rcases pollStep_none e.1 e.2 st htd with hc | hc
          · simp [pollTrace, hc, List.count_append]
            exact ih st
          · simp [pollTrace, hc, List.count_append, List.count_cons]
            have : (pollTrace { st with timedout := some e.2 } rest).2.count Sig.sigint = 0 :=
              pollTrace_some_no_sigint rest _ e.2 rfl
            simp [this]

/-- C2: for a running test with a positive timeout the poll operation
escalates exactly once: the first poll past the timeout sends SIGINT and
records the moment, a poll before the crossing sends nothing, at most one
SIGINT is ever sent along any trace (and none once the moment is
recorded), and a later poll more than `interrupt_to_kill_timeout` (30 s)
after the recorded moment, while the child has not exited, sends
SIGTERM. -/
theorem testexec_poll_escalation (st : ExecState) (now td : Int)
    (events : List (Bool × Int)) :
    (st.timeout > 0 → st.timedout = none → now - st.tstart > st.timeout →
      pollStep false now st = ({ st with timedout := some now }, [Sig.sigint])) ∧
    (st.timedout = none → ¬ now - st.tstart > st.timeout →
      pollStep false now st = (st, [])) ∧
    (st.timedout = some td → (pollTrace st events).2.count Sig.sigint = 0) ∧
    (pollTrace st events).2.count Sig.sigint ≤ 1 ∧
    (st.timeout > 0 → st.timedout = some td → now - td > interrupt_to_kill_timeout →
      td - st.tstart > st.timeout → pollStep false now st = (st, [Sig.sigterm])) := by
  refine ⟨?_, ?_, ?_, pollTrace_sigint_le_one events st, ?_⟩
  · intro h1 h2 h3
    unfold pollStep
    simp [h1, h2, h3]
  · intro h1 h2
    unfold pollStep
    split_ifs <;> simp_all
  · intro h; exact pollTrace_some_no_sigint events st td h
  · intro h1 h2 h3 h4
    have h5 : now - st.tstart > st.timeout := by
      have : (30 : Int) ≤ interrupt_to_kill_timeout := by decide
      omega
    unfold pollStep
    have h6 : now - td > interrupt_to_kill_timeout := h3
    simp [h1, h2, h5, h6]

/-- Witness for the C2 theorem at concrete states and times. -/
theorem testexec_poll_escalation_witness :
    pollStep false 11 ⟨10, 0, none⟩ = (⟨10, 0, some 11⟩, [Sig.sigint]) ∧
    (pollTrace ⟨10, 0, some 5⟩ [(false, 40)]).2.count Sig.sigint = 0 ∧
    pollStep false 50 ⟨10, 0, some 15⟩ = (⟨10, 0, some 15⟩, [Sig.sigterm]) :=
  ⟨(testexec_poll_escalation ⟨10, 0, none⟩ 11 0 []).1 (by decide) rfl (by decide),
   (testexec_poll_escalation ⟨10, 0, some 5⟩ 11 5 [(false, 40)]).2.2.1 rfl,
   (testexec_poll_escalation ⟨10, 0, some 15⟩ 50 15 []).2.2.2.2
     (by decide) rfl (by decide) (by decide)⟩

/-- Folding the warning OR from any accumulator factors through the empty
accumulator. -/
theorem encodeIntegerWarning_foldl (tests : List (Bool × String)) (a : Nat) :
    tests.foldl (fun ival t => ival ||| warningBits t.1 t.2) a
      = a ||| tests.foldl (fun ival t => ival ||| warningBits t.1 t.2) 0 := by
  induction tests generalizing a with
  | nil => simp
  | cons t ts ih =>
      simp only [List.foldl_cons]
      rw [ih (a ||| warningBits t.1 t.2), ih (0 ||| warningBits t.1 t.2)]
      simp [Nat.lor_assoc]

/-- Cons form of the warning encoding. -/
theorem encodeIntegerWarning_cons (t : Bool × String) (ts : List (Bool × String)) :
    encodeIntegerWarning (t :: ts) = warningBits t.1 t.2 ||| encodeIntegerWarning ts := by
  simp only [encodeIntegerWarning, List.foldl_cons]
  rw [encodeIntegerWarning_foldl]
  simp

/-- Per-bit value of one test's contribution to the warning encoding. -/
theorem warningBits_testBit (s : Bool) (r : String) :
    (warningBits s r).testBit 1 = (!s && (r == "diff")) ∧
    (warningBits s r).testBit 2 = (!s && (r == "fail")) ∧
    (warningBits s r).testBit 3 = (!s && (r == "timeout")) ∧
    (warningBits s r).testBit 4 = (!s && (r == "notdone")) ∧
    (warningBits s r).testBit 5 = (!s && (r == "notrun")) ∧
    (∀ k, k ≠ 1 → k ≠ 2 → k ≠ 3 → k ≠ 4 → k ≠ 5 →
      (warningBits s r).testBit k = false) := by
  cases s
  · have hw : warningBits false r
        = (if r = "diff" then 2^1 else if r = "fail" then 2^2
           else if r = "timeout" then 2^3 else if r = "notdone" then 2^4
           else if r = "notrun" then 2^5 else 0) := by
      simp [warningBits]
    rw [hw]
    split_ifs with h1 h2 h3 h4 h5
    · subst h1
      exact ⟨by decide, by decide, by decide, by decide, by decide,
        fun k hk1 _ _ _ _ => Nat.testBit_two_pow_of_ne (by omega)⟩
    · subst h2
      refine ⟨by decide, by decide, by decide, by decide, by decide,
        fun k _ hk2 _ _ _ => Nat.testBit_two_pow_of_ne (by omega)⟩
    · subst h3
      refine ⟨by decide, by decide, by decide, by decide, by decide,
        fun k _ _ hk3 _ _ => Nat.testBit_two_pow_of_ne (by omega)⟩
    · subst h4
      refine ⟨by decide, by decide, by decide, by decide, by decide,
        fun k _ _ _ hk4 _ => Nat.testBit_two_pow_of_ne (by omega)⟩
    · subst h5
      refine ⟨by decide, by decide, by decide, by decide, by decide,
        fun k _ _ _ _ hk5 => Nat.testBit_two_pow_of_ne (by omega)⟩
    · refine ⟨by simp [h1], by simp [h2], by simp [h3], by simp [h4], by simp [h5],
        fun k _ _ _ _ _ => Nat.zero_testBit k⟩
  · simp [warningBits]

/-- The warning encoding tests a bit exactly when some stored test's
contribution does. -/
theorem encodeIntegerWarning_testBit (tests : List (Bool × String)) (k : Nat) :
    (encodeIntegerWarning tests).testBit k
      = tests.any (fun t => (warningBits t.1 t.2).testBit k) := by
  induction tests with
  | nil => simp [encodeIntegerWarning]
  | cons t ts ih =>
      rw [encodeIntegerWarning_cons, Nat.testBit_lor, ih]
      simp [List.any_cons]

/-- C6: the integer warning encoding sets exactly the bits of the non-pass
result kinds present among non-skipped tests (diff at bit 1 with value 2,
fail at bit 2 with value 4, timeout 8, notdone 16, notrun 32), every
other bit is clear, and the encoding is zero exactly when no non-skipped
test has one of those five result kinds. -/
theorem encodeIntegerWarning_spec (tests : List (Bool × String)) (k : Nat) :
    ((encodeIntegerWarning tests).testBit 1 = true ↔
      ∃ t ∈ tests, t.1 = false ∧ t.2 = "diff") ∧
    ((encodeIntegerWarning tests).testBit 2 = true ↔
      ∃ t ∈ tests, t.1 = false ∧ t.2 = "fail") ∧
    ((encodeIntegerWarning tests).testBit 3 = true ↔
      ∃ t ∈ tests, t.1 = false ∧ t.2 = "timeout") ∧
    ((encodeIntegerWarning tests).testBit 4 = true ↔
      ∃ t ∈ tests, t.1 = false ∧ t.2 = "notdone") ∧
    ((encodeIntegerWarning tests).testBit 5 = true ↔
      ∃ t ∈ tests, t.1 = false ∧ t.2 = "notrun") ∧
    (k ≠ 1 → k ≠ 2 → k ≠ 3 → k ≠ 4 → k ≠ 5 →
      (encodeIntegerWarning tests).testBit k = false) ∧
    (encodeIntegerWarning tests = 0 ↔
      ∀ t ∈ tests, t.1 = false →
        t.2 ≠ "diff" ∧ t.2 ≠ "fail" ∧ t.2 ≠ "timeout" ∧
        t.2 ≠ "notdone" ∧ t.2 ≠ "notrun") := by
  have hbit : ∀ i, (encodeIntegerWarning tests).testBit i
      = tests.any (fun t => (warningBits t.1 t.2).testBit i) :=
    fun i => encodeIntegerWarning_testBit tests i
  have h1 : ∀ t : Bool × String, (warningBits t.1 t.2).testBit 1 = (!t.1 && (t.2 == "diff")) :=
    fun t => (warningBits_testBit t.1 t.2).1
  have h2 : ∀ t : Bool × String, (warningBits t.1 t.2).testBit 2 = (!t.1 && (t.2 == "fail")) :=
    fun t => (warningBits_testBit t.1 t.2).2.1
  have h3 : ∀ t : Bool × String,
      (warningBits t.1 t.2).testBit 3 = (!t.1 && (t.2 == "timeout")) :=
    fun t => (warningBits_testBit t.1 t.2).2.2.1
  have h4 : ∀ t : Bool × String,
      (warningBits t.1 t.2).testBit 4 = (!t.1 && (t.2 == "notdone")) :=
    fun t => (warningBits_testBit t.1 t.2).2.2.2.1
  have h5 : ∀ t : Bool × String,
      (warningBits t.1 t.2).testBit 5 = (!t.1 && (t.2 == "notrun")) :=
    fun t => (warningBits_testBit t.1 t.2).2.2.2.2.1
  refine ⟨?_, ?_, ?_, ?_, ?_, ?_, ?_⟩
  · rw [hbit 1]; simp only [List.any_eq_true, h1]
    constructor
    · rintro ⟨t, ht, hv⟩
      exact ⟨t, ht, by simpa using hv⟩
    · rintro ⟨t, ht, hv⟩
      exact ⟨t, ht, by simp [hv.1, hv.2]⟩
  · rw [hbit 2]; simp only [List.any_eq_true, h2]
    constructor
    · rintro ⟨t, ht, hv⟩
      exact ⟨t, ht, by simpa using hv⟩
    · rintro ⟨t, ht, hv⟩
      exact ⟨t, ht, by simp [hv.1, hv.2]⟩
  · rw [hbit 3]; simp only [List.any_eq_true, h3]
    constructor
    · rintro ⟨t, ht, hv⟩
      exact ⟨t, ht, by simpa using hv⟩
    · rintro ⟨t, ht, hv⟩
      exact ⟨t, ht, by simp [hv.1, hv.2]⟩
  · rw [hbit 4]; simp only [List.any_eq_true, h4]
    constructor
    · rintro ⟨t, ht, hv⟩
      exact ⟨t, ht, by simpa using hv⟩
    · rintro ⟨t, ht, hv⟩
      exact ⟨t, ht, by simp [hv.1, hv.2]⟩
  · rw [hbit 5]; simp only [List.any_eq_true, h5]
    constructor
    · rintro ⟨t, ht, hv⟩
      exact ⟨t, ht, by simpa using hv⟩
    · rintro ⟨t, ht, hv⟩
      exact ⟨t, ht, by simp [hv.1, hv.2]⟩
  · intro hk1 hk2 hk3 hk4 hk5
    rw [hbit k]
    simp only [List.any_eq_false]
    intro t _
    simp only [Bool.not_eq_true]
    exact ((warningBits_testBit t.1 t.2).2.2.2.2.2 k hk1 hk2 hk3 hk4 hk5)
  · constructor
    · intro hz t ht hs
      have hb : ∀ i, (encodeIntegerWarning tests).testBit i = false := by
        intro i; rw [hz]; exact Nat.zero_testBit i
      refine ⟨?_, ?_, ?_, ?_, ?_⟩
      · intro hv
        have := hbit 1
        rw [hb 1] at this
        have h := (List.any_eq_false.mp this.symm) t ht
        rw [h1 t, hs, hv] at h
        simp at h
      · intro hv
        have := hbit 2
        rw [hb 2] at this
        have h := (List.any_eq_false.mp this.symm) t ht
        rw [h2 t, hs, hv] at h
        simp at h
      · intro hv
        have := hbit 3
        rw [hb 3] at this
        have h := (List.any_eq_false.mp this.symm) t ht
        rw [h3 t, hs, hv] at h
        simp at h
      · intro hv
        have := hbit 4
        rw [hb 4] at this
        have h := (List.any_eq_false.mp this.symm) t ht
        rw [h4 t, hs, hv] at h
        simp at h
      · intro hv
        have := hbit 5
        rw [hb 5] at this
        have h := (List.any_eq_false.mp this.symm) t ht
        rw [h5 t, hs, hv] at h
        simp at h
    · intro h
      apply Nat.eq_of_testBit_eq
      intro i
      rw [Nat.zero_testBit, hbit i]
      simp only [List.any_eq_false]
      intro t ht
      simp only [Bool.not_eq_true]
      cases hs : t.1 with
      | true =>
          have hw : warningBits true t.2 = 0 := by simp [warningBits]
          rw [hw]
          exact Nat.zero_testBit i
      | false =>
          have hr := h t ht hs
          have hb1 := (warningBits_testBit false t.2).1
          have hb2 := (warningBits_testBit false t.2).2.1
          have hb3 := (warningBits_testBit false t.2).2.2.1
          have hb4 := (warningBits_testBit false t.2).2.2.2.1
          have hb5 := (warningBits_testBit false t.2).2.2.2.2.1
          by_cases hi1 : i = 1
          · subst hi1; rw [hb1]; simp [hr.1]
          · by_cases hi2 : i = 2
            · subst hi2; rw [hb2]; simp [hr.2.1]
            · by_cases hi3 : i = 3
              · subst hi3; rw [hb3]; simp [hr.2.2.1]
              · by_cases hi4 : i = 4
                · subst hi4; rw [hb4]; simp [hr.2.2.2.1]
                · by_cases hi5 : i = 5
                  · subst hi5; rw [hb5]; simp [hr.2.2.2.2]
                  · exact (warningBits_testBit false t.2).2.2.2.2.2 i hi1 hi2 hi3 hi4 hi5

/-- Witness for the C6 theorem at a concrete test list and bit position. -/
theorem encodeIntegerWarning_spec_witness :
    (encodeIntegerWarning [(false, "diff"), (true, "fail")]).testBit 0 = false ∧
    ((encodeIntegerWarning [(false, "diff"), (true, "fail")]).testBit 1 = true ↔
      ∃ t ∈ [((false : Bool), ("diff" : String)), (true, "fail")],
        t.1 = false ∧ t.2 = "diff") :=
  ⟨(encodeIntegerWarning_spec [(false, "diff"), (true, "fail")] 0).2.2.2.2.2.1
      (by decide) (by decide) (by decide) (by decide) (by decide),
   (encodeIntegerWarning_spec [(false, "diff"), (true, "fail")] 0).1⟩

/-- Propositional view of staging relatedness. -/
theorem tests_are_related_by_staging_iff (t1 t2 : TestSpec) :
    tests_are_related_by_staging t1 t2 = true ↔
      t1.xdir = t2.xdir ∧ t1.filename = t2.filename ∧
      t1.xdir ≠ t1.displ ∧ startswith t1.displ.toList t1.xdir.toList = true ∧
      t2.xdir ≠ t2.displ ∧ startswith t2.displ.toList t2.xdir.toList = true := by
  simp [tests_are_related_by_staging, Bool.and_eq_true, beq_iff_eq, bne_iff_ne, and_assoc]

/-- Staging relatedness is symmetric. -/
theorem tests_are_related_by_staging_symm (t1 t2 : TestSpec)
    (h : tests_are_related_by_staging t1 t2 = true) :
    tests_are_related_by_staging t2 t1 = true := by
  rw [tests_are_related_by_staging_iff] at h ⊢
  obtain ⟨h1, h2, h3, h4, h5, h6⟩ := h
  exact ⟨h1.symm, h2.symm, h5, h6, h3, h4⟩

/-- Two tests both staging-related to a common test are staging-related to
each other. -/
theorem tests_are_related_by_staging_trans (a b c : TestSpec)
    (hab : tests_are_related_by_staging a b = true)
    (hac : tests_are_related_by_staging a c = true) :
    tests_are_related_by_staging b c = true := by
  rw [tests_are_related_by_staging_iff] at hab hac ⊢
  obtain ⟨e1, e2, _, _, s1, s2⟩ := hab
  obtain ⟨f1, f2, _, _, u1, u2⟩ := hac
  exact ⟨e1.symm.trans f1, e2.symm.trans f2, s1, s2, u1, u2⟩

/-- The invariant relation between two stored tests: distinct execute
directories or staging siblings. -/
def XdirOK (a b : TestSpec) : Prop :=
  a.xdir ≠ b.xdir ∨ tests_are_related_by_staging a b = true

theorem xdirOK_symm : Symmetric XdirOK := by
  intro a b h
  rcases h with h | h
  · exact Or.inl (fun e => h e.symm)
  · exact Or.inr (tests_are_related_by_staging_symm a b h)

/-- Storing one parsed test preserves the pairwise invariant. -/
theorem addParsedTest_pairwise (acc : List TestSpec) (t : TestSpec)
    (h : acc.Pairwise XdirOK) : (addParsedTest acc t).Pairwise XdirOK := by
  unfold addParsedTest
  by_cases hd : is_duplicate_execute_directory acc t = true
  · simp [hd]; exact h
  · simp [hd]
    refine ⟨?_, h⟩
    intro b hb
    unfold is_duplicate_execute_directory at hd
    cases hl : xdirLookup acc t.xdir with
    | none =>
        unfold xdirLookup at hl
        have := List.find?_eq_none.mp hl b hb
        left
        intro he
        exact this (by simp [he])
    | some t0 =>
        rw [hl] at hd
        have hd2 : tests_are_related_by_staging t0 t = true := by
          simpa using hd
        have ht0mem : t0 ∈ acc := List.mem_of_find?_eq_some hl
        have ht0x : t0.xdir = t.xdir := by
          have := List.find?_some hl
          simpa using this
        by_cases hbx : b.xdir = t.xdir
        · have hrel0b : tests_are_related_by_staging t0 b = true := by
            by_cases hb0 : t0 = b
            · subst hb0
              rw [tests_are_related_by_staging_iff] at hd2 ⊢
              obtain ⟨e1, e2, s1, s2, _, _⟩ := hd2
              exact ⟨rfl, rfl, s1, s2, s1, s2⟩
            · have hp := h.forall xdirOK_symm ht0mem hb hb0
              rcases hp with hp | hp
              · exact absurd (ht0x.trans hbx.symm) hp
              · exact hp
          have hrel0t : tests_are_related_by_staging t0 t = true := hd2
          right
          exact tests_are_related_by_staging_trans t0 t b hrel0t hrel0b
        · left
          exact fun e => hbx e.symm

/-- The storage loop preserves the pairwise invariant. -/
theorem addParsedTests_pairwise (ts : List TestSpec) (acc : List TestSpec)
    (h : acc.Pairwise XdirOK) : (addParsedTests acc ts).Pairwise XdirOK := by
  induction ts generalizing acc with
  | nil => exact h
  | cons t ts ih =>
      unfold addParsedTests
      rw [List.foldl_cons]
      exact ih (addParsedTest acc t) (addParsedTest_pairwise acc t h)

/-- C8: the test-list store preserves execute-directory uniqueness: a
parsed spec whose execute directory collides with the stored spec for
that directory is rejected unless the two are related by staging, a
staging collision is stored, and consequently any two stored cases with
different ids have different execute directories or are staging
siblings. -/
theorem testlist_xdir_uniqueness (ts acc : List TestSpec) (t : TestSpec) :
    (∀ a ∈ addParsedTests [] ts, ∀ b ∈ addParsedTests [] ts, a.tid ≠ b.tid →
      a.xdir ≠ b.xdir ∨ tests_are_related_by_staging a b = true) ∧
    (∀ t0, xdirLookup acc t.xdir = some t0 →
      tests_are_related_by_staging t0 t = false → addParsedTest acc t = acc) ∧
    (∀ t0, xdirLookup acc t.xdir = some t0 →
      tests_are_related_by_staging t0 t = true → addParsedTest acc t = t :: acc) ∧
    (xdirLookup acc t.xdir = none → addParsedTest acc t = t :: acc) := by
  refine ⟨?_, ?_, ?_, ?_⟩
  · intro a ha b hb hab
    have hp := addParsedTests_pairwise ts [] List.Pairwise.nil
    have hne : a ≠ b := fun e => hab (by rw [e])
    exact hp.forall xdirOK_symm ha hb hne
  · intro t0 hl hrel
    unfold addParsedTest is_duplicate_execute_directory
    rw [hl]
    simp [hrel]
  · intro t0 hl hrel
    unfold addParsedTest is_duplicate_execute_directory
    rw [hl]
    simp [hrel]
  · intro hl
    unfold addParsedTest is_duplicate_execute_directory
    rw [hl]
    simp

/-- Witness for the C8 theorem on a concrete staged pair and a rejected
collision. -/
theorem testlist_xdir_uniqueness_witness :
    addParsedTest [(⟨1, "x", "x.s=1", "f"⟩ : TestSpec)] ⟨3, "x", "x", "g"⟩
      = [(⟨1, "x", "x.s=1", "f"⟩ : TestSpec)] ∧
    addParsedTest [(⟨1, "x", "x.s=1", "f"⟩ : TestSpec)] ⟨2, "x", "x.s=2", "f"⟩
      = [⟨2, "x", "x.s=2", "f"⟩, (⟨1, "x", "x.s=1", "f"⟩ : TestSpec)] ∧
    ((⟨2, "x", "x.s=2", "f"⟩ : TestSpec).xdir ≠ (⟨1, "x", "x.s=1", "f"⟩ : TestSpec).xdir ∨
      tests_are_related_by_staging ⟨2, "x", "x.s=2", "f"⟩ ⟨1, "x", "x.s=1", "f"⟩ = true) :=
  ⟨(testlist_xdir_uniqueness [] [⟨1, "x", "x.s=1", "f"⟩] ⟨3, "x", "x", "g"⟩).2.1
      ⟨1, "x", "x.s=1", "f"⟩ (by decide) (by decide),
   (testlist_xdir_uniqueness [] [⟨1, "x", "x.s=1", "f"⟩] ⟨2, "x", "x.s=2", "f"⟩).2.2.1
      ⟨1, "x", "x.s=1", "f"⟩ (by decide) (by decide),
   (testlist_xdir_uniqueness [⟨1, "x", "x.s=1", "f"⟩, ⟨2, "x", "x.s=2", "f"⟩]
      [] ⟨0, "", "", ""⟩).1
      ⟨2, "x", "x.s=2", "f"⟩ (by decide) ⟨1, "x", "x.s=1", "f"⟩ (by decide) (by decide)⟩

/-- The first nonempty list among a list of candidate match lists, or the
empty list. -/
def firstNonempty : List (List String) → List String
  | [] => []
  | L :: rest => if L ≠ [] then L else firstNonempty rest

/-- The single accumulating pass of the dependency resolver builds the four
filters of the candidate patterns. -/
theorem depend_fold_filters (q1 q2 q3 q4 : List Char) (xs : List String)
    (a1 a2 a3 a4 : List String) :
    xs.foldl (fun acc x =>
        ( if fnmatch x.toList q1 then acc.1 ++ [x] else acc.1,
          if fnmatch x.toList q2 then acc.2.1 ++ [x] else acc.2.1,
          if fnmatch x.toList q3 then acc.2.2.1 ++ [x] else acc.2.2.1,
          if fnmatch x.toList q4 then acc.2.2.2 ++ [x] else acc.2.2.2 )) (a1, a2, a3, a4)
      = (a1 ++ xs.filter (fun x => fnmatch x.toList q1),
         a2 ++ xs.filter (fun x => fnmatch x.toList q2),
         a3 ++ xs.filter (fun x => fnmatch x.toList q3),
         a4 ++ xs.filter (fun x => fnmatch x.toList q4)) := by
  induction xs generalizing a1 a2 a3 a4 with
  | nil => simp
  | cons x xs ih =>
      simp only [List.foldl_cons, List.filter_cons]
      rw [ih]
      simp only [Prod.mk.injEq]
      refine ⟨?_, ?_, ?_, ?_⟩ <;> split_ifs <;> simp

/-- C5 (amended): the resolver evaluates the four candidate forms in the
fixed order dirname(xdir)/pattern (normalised), dirname(xdir)/*/pattern,
pattern, *pattern against all known execute directories, and returns the
complete match set of the first form that matches at least one directory;
if none match it returns the empty set. -/
theorem find_tests_first_nonempty (xdir pattern : String) (xdirs : List String) :
    find_tests_by_execute_directory_match xdir pattern xdirs =
      firstNonempty
        [ xdirs.filter (fun x =>
            fnmatch x.toList (normpathL (dep_tbase xdir ++ pattern.toList))),
          xdirs.filter (fun x =>
            fnmatch x.toList (dep_tbase xdir ++ '*' :: '/' :: pattern.toList)),
          xdirs.filter (fun x => fnmatch x.toList pattern.toList),
          xdirs.filter (fun x => fnmatch x.toList ('*' :: pattern.toList)) ] := by
  unfold find_tests_by_execute_directory_match
  unfold_let
  rw [depend_fold_filters]
  simp only [List.nil_append]
  simp [firstNonempty]

/-- C5 counterexample: for dependent execute directory `a/x`, pattern `c`
and known directories `a/c` and `b/c`, the code resolves with the dirname
prefix `a/` and returns only `a/c`; under the claim's basename-based
candidate forms the first three forms match nothing and the fourth form
`*c` matches both directories, so the claim would require the full set of
both. -/
theorem find_tests_basename_counterexample :
    find_tests_by_execute_directory_match ("a/x") ("c") (["a/c", "b/c"]) = [("a/c")] ∧
    String.mk (basenameL (("a/x").toList)) = ("x") ∧
    (["a/c", "b/c"] : List String).filter (fun x => fnmatch x.toList (("x/c").toList)) = [] ∧
    (["a/c", "b/c"] : List String).filter (fun x => fnmatch x.toList (("x/*/c").toList)) = [] ∧
    (["a/c", "b/c"] : List String).filter (fun x => fnmatch x.toList (("c").toList)) = [] ∧
    (["a/c", "b/c"] : List String).filter (fun x => fnmatch x.toList (("*c").toList))
      = [("a/c"), ("b/c")] ∧
    ([("a/c")] : List String) ≠ [("a/c"), ("b/c")] := by
  decide

/-- C10: post-clean of an execute directory never removes a symbolic link
nor any protected name (the excludes list, `execute_*.log` matches, and
`runscript` for xml-form tests), removes every other entry of the run
directory, and leaves entries outside the run directory untouched. -/
theorem post_clean_frame (rundir specform : String) (fs : List DirEntry) (e : DirEntry) :
    (e ∈ fs → e.isLink = true → e ∈ post_clean_execute_directory rundir specform fs) ∧
    (e ∈ fs → e.name ∈ post_clean_excludes specform →
      e ∈ post_clean_execute_directory rundir specform fs) ∧
    (e ∈ fs → fnmatch e.name.toList ("execute_*.log").toList = true →
      e ∈ post_clean_execute_directory rundir specform fs) ∧
    (e ∈ fs → e.dir ≠ rundir → e ∈ post_clean_execute_directory rundir specform fs) ∧
    (e.dir = rundir → e.isLink = false → ¬ e.name ∈ post_clean_excludes specform →
      fnmatch e.name.toList ("execute_*.log").toList = false →
      e ∉ post_clean_execute_directory rundir specform fs) := by
  refine ⟨?_, ?_, ?_, ?_, ?_⟩
  · intro he hl
    rw [post_clean_execute_directory, List.mem_filter]
    exact ⟨he, by simp [post_clean_removes, hl]⟩
  · intro he hn
    rw [post_clean_execute_directory, List.mem_filter]
    refine ⟨he, ?_⟩
    simp [post_clean_removes, hn]
  · intro he hm
    rw [post_clean_execute_directory, List.mem_filter]
    refine ⟨he, ?_⟩
    have hr : post_clean_removes specform e = false := by
      unfold post_clean_removes
      rw [hm]
      simp
    simp [hr]
  · intro he hd
    rw [post_clean_execute_directory, List.mem_filter]
    refine ⟨he, ?_⟩
    have : (e.dir == rundir) = false := by simp [hd]
    simp [this]
  · intro hd hl hn hm hmem
    rw [post_clean_execute_directory, List.mem_filter] at hmem
    have hc : (post_clean_excludes specform).contains e.name = false := by
      simpa using hn
    have hr : post_clean_removes specform e = true := by
      unfold post_clean_removes
      rw [hc, hm, hl]
      simp
    have := hmem.2
    rw [hr] at this
    simp [hd] at this

/-- Witness for the C10 theorem on a concrete run directory listing. -/
theorem post_clean_frame_witness :
    (⟨"rd", "lnk", true⟩ : DirEntry)
      ∈ post_clean_execute_directory ("rd") ("script")
          [⟨"rd", "lnk", true⟩, ⟨"rd", "foo.txt", false⟩] ∧
    (⟨"rd", "foo.txt", false⟩ : DirEntry)
      ∉ post_clean_execute_directory ("rd") ("script")
          [⟨"rd", "lnk", true⟩, ⟨"rd", "foo.txt", false⟩] ∧
    (⟨"other", "foo.txt", false⟩ : DirEntry)
      ∈ post_clean_execute_directory ("rd") ("script")
          [⟨"other", "foo.txt", false⟩] ∧
    (⟨"rd", "execute_a.log", false⟩ : DirEntry)
      ∈ post_clean_execute_directory ("rd") ("script")
          [⟨"rd", "execute_a.log", false⟩] :=
  ⟨(post_clean_frame ("rd") ("script")
      [⟨"rd", "lnk", true⟩, ⟨"rd", "foo.txt", false⟩] ⟨"rd", "lnk", true⟩).1
      (by decide) rfl,
   (post_clean_frame ("rd") ("script")
      [⟨"rd", "lnk", true⟩, ⟨"rd", "foo.txt", false⟩] ⟨"rd", "foo.txt", false⟩).2.2.2.2
      rfl rfl (by decide) (by decide),
   (post_clean_frame ("rd") ("script")
      [⟨"other", "foo.txt", false⟩] ⟨"other", "foo.txt", false⟩).2.2.2.1
      (by decide) (by decide),
   (post_clean_frame ("rd") ("script")
      [⟨"rd", "execute_a.log", false⟩] ⟨"rd", "execute_a.log", false⟩).2.2.1
      (by decide) (by decide)⟩

end Vvtest
